import Mathlib

/-
Shallow embedding of the document retrieval engine in `vector_db_utils.py`
(class `VectorDBManager`), together with proofs about the claims of the
specification.

Modelling conventions:
- Python `str` values manipulated by the chunker/search code are modelled as
  `List Char` (a Python string is a sequence of code points); opaque
  identifiers (uuid strings, summaries, timestamps) stay `String`.
- Python `float` is modelled as `ℝ`.
- Python `int` parameters (`chunk_size`, `chunk_overlap`) are modelled as `ℤ`;
  `top_k` counts results and is modelled as `ℕ`.
- The filesystem state of one document's collection directory is modelled as
  a record of three artifacts (chunks / vectors / metadata), each of which is
  absent, present-but-unreadable (json.load raises), or readable with a value.
  A write (`with open(file, 'w'): json.dump(...)`) can succeed, fail before
  `open` touches the file, or fail after `open` has already created or
  truncated it — in which case the artifact is present but unreadable.
- External HTTP providers are modelled as response oracles passed as
  arguments (embedding responses per batch, one rerank response); exceptions
  and missing-credential situations are explicit constructors/flags.
-/

namespace VecDB

/-! ## Python string primitives (on `List Char`) -/

/-- Python `s.split(sep)` for a two-character separator `[a, b]`
(both separators used by the source, `"\n\n"` and `". "`, have two
characters): left-to-right scan, non-overlapping matches, keeps empty
parts, returns `[s]` when the separator does not occur. -/
def pySplit2 (a b : Char) : List Char → List (List Char)
  | [] => [[]]
  | [c] => [[c]]
  | c :: d :: rest =>
    if c = a ∧ d = b then [] :: pySplit2 a b rest
    else
      match pySplit2 a b (d :: rest) with
      | [] => [[c]]
      | p :: ps => (c :: p) :: ps

/-- Python `s.strip()`: remove leading and trailing whitespace. -/
def pyStrip (s : List Char) : List Char :=
  ((s.dropWhile Char.isWhitespace).reverse.dropWhile Char.isWhitespace).reverse

/-- Python `s.lower()`. -/
def pyLower (s : List Char) : List Char :=
  s.map Char.toLower

/-- Helper for substring search: does `needle` start `hay`? -/
def startsWith : List Char → List Char → Bool
  | [], _ => true
  | _ :: _, [] => false
  | c :: cs, d :: ds => c = d && startsWith cs ds

/-- Python `needle in hay` for strings: contiguous substring containment. -/
def listContains (hay needle : List Char) : Bool :=
  (List.range (hay.length + 1)).any (fun i => startsWith needle (hay.drop i))

/-! ## Chunker (`VectorDBManager._split_text`) -/

/-- One chunk, as stored in `chunks.json`: `{id, text, metadata: {"index": n}}`.
The uuid4 identifier of the n-th appended chunk is modelled as `idGen n`. -/
structure Chunk where
  id : String
  text : List Char
  index : Nat
deriving DecidableEq

/-- The chunker's loop state: `chunks`, `current_chunk`, `current_size`. -/
structure SplitState where
  chunks : List Chunk
  current : List Char
  size : Int
deriving DecidableEq

/-- The append in `_split_text`: `if current_chunk: chunks.append({id:
uuid4, text: current_chunk.strip(), metadata: {"index": len(chunks)}})`. -/
def pushCurrent (idGen : Nat → String) (st : SplitState) : List Chunk :=
  if st.current.isEmpty then st.chunks
  else st.chunks ++ [⟨idGen st.chunks.length, pyStrip st.current, st.chunks.length⟩]

/-- Body of the inner `for sentence in sentences` loop of `_split_text`. -/
def procSentence (idGen : Nat → String) (chunk_size : Int) (st : SplitState)
    (sraw : List Char) : SplitState :=
  let s := pyStrip sraw
  if s.isEmpty then st
  else if st.size + s.length ≤ chunk_size then
    { st with current := st.current ++ s ++ ['.', ' '], size := st.size + s.length + 2 }
  else
    { chunks := pushCurrent idGen st, current := s ++ ['.', ' '],
      size := (s.length : Int) + 2 }

/-- Body of the outer `for paragraph in paragraphs` loop of `_split_text`. -/
def procParagraph (idGen : Nat → String) (chunk_size : Int) (st : SplitState)
    (praw : List Char) : SplitState :=
  let p := pyStrip praw
  if p.isEmpty then st
  else if chunk_size < (p.length : Int) then
    (pySplit2 '.' ' ' p).foldl (procSentence idGen chunk_size) st
  else if chunk_size < st.size + p.length then
    { chunks := pushCurrent idGen st, current := p ++ ['\n', '\n'],
      size := (p.length : Int) + 2 }
  else
    { st with current := st.current ++ p ++ ['\n', '\n'], size := st.size + p.length + 2 }

/-- Embedding of `VectorDBManager._split_text(text, chunk_size, chunk_overlap)`.
`chunk_overlap` is accepted and ignored, exactly as in the source. -/
def _split_text (idGen : Nat → String) (text : List Char)
    (chunk_size chunk_overlap : Int) : List Chunk :=
  pushCurrent idGen
    ((pySplit2 '\n' '\n' text).foldl (procParagraph idGen chunk_size) ⟨[], [], 0⟩)

/-! ## Embedding provider adapter (`VectorDBManager._generate_vectors`) -/

/-- One embedding-endpoint response for a batch: either no usable `data`
field (API error response, or the request raised), or a `data` list of
embeddings in order. -/
inductive EmbedResponse where
  | noData
  | data (embeddings : List (List ℝ))

/-- One vector entry of `vectors.json`: `{id, vector, metadata}` where the
metadata is the chunk's `{"index": n}`. -/
structure StoredVec where
  id : String
  vector : List ℝ
  index : Nat

/-- The placeholder embedding `[0.0] * 1024`. -/
def placeholderVector : List ℝ := List.replicate 1024 0

/-- Build the vector entry for a chunk: copies the chunk's id and metadata. -/
def mkStoredVec (c : Chunk) (v : List ℝ) : StoredVec :=
  ⟨c.id, v, c.index⟩

/-- The batched loop of `_generate_vectors` (`batch_size = 20`): for each
batch, a `data` response pairs embeddings with the batch's chunks in order
(dropping response items beyond the batch length, `j < len(batch_chunks)`),
and any failed batch gets one placeholder vector per chunk. `resp k` is the
provider's response to the k-th batch counted from the current position. -/
def genVectorsBatches (resp : Nat → EmbedResponse) (chunks : List Chunk) : List StoredVec :=
  match chunks with
  | [] => []
  | c :: cs =>
    (match resp 0 with
     | .noData => ((c :: cs).take 20).map (fun ch => mkStoredVec ch placeholderVector)
     | .data embs => List.zipWith mkStoredVec ((c :: cs).take 20) embs)
    ++ genVectorsBatches (fun k => resp (k + 1)) ((c :: cs).drop 20)
termination_by chunks.length
decreasing_by simp; omega

/-- Embedding of `VectorDBManager._generate_vectors(chunks)`: with no API key, one
placeholder vector per chunk; otherwise the batched API loop. -/
def _generate_vectors (apiKey : Bool) (resp : Nat → EmbedResponse)
    (chunks : List Chunk) : List StoredVec :=
  if apiKey = false then chunks.map (fun ch => mkStoredVec ch placeholderVector)
  else genVectorsBatches resp chunks

/-! ## Vector collection store (`create_vector_db`, `get_vector_db_status`) -/

/-- State of one persisted artifact file: absent, present but unreadable
(`json.load` raises), or readable with parsed contents. `os.path.exists` is
true for both `corrupt` and `ok`. -/
inductive Artifact (α : Type) where
  | absent
  | corrupt
  | ok (val : α)

/-- Presence test `os.path.exists` on an artifact file. -/
def Artifact.present {α : Type} : Artifact α → Bool
  | .absent => false
  | _ => true

/-- Parsed contents of `metadata.json` (the fields `get_vector_db_status`
reads back). -/
structure MetaJson where
  created_at : String
  chunk_size : Int
  chunk_overlap : Int
  summary : String

/-- Filesystem state of one document's collection directory. -/
structure FileState where
  dirExists : Bool
  chunks : Artifact (List Chunk)
  vectors : Artifact (List StoredVec)
  metadata : Artifact MetaJson

/-- Outcome of one `with open(file, 'w') as f: json.dump(...)` write in
`create_vector_db`: it succeeds; or `open` itself raises (permissions, bad
path) and the file is left untouched; or `open` succeeds — creating or
truncating the file — and `json.dump`/the write raises afterwards (e.g.
disk full), leaving the file present but unreadable. -/
inductive WriteResult where
  | ok
  | failClosed
  | failOpen

/-- Embedding of `VectorDBManager.create_vector_db(doc_id, doc_content, doc_metadata,
chunk_size, chunk_overlap)`. `mkdirFails` is whether `os.makedirs` raises;
`wMeta`, `wChunks`, `wVectors` are the outcomes of the three `json.dump`
writes in program order (the summary call and the pure computations between
them never raise). Execution stops at the first failing step and the whole
call is wrapped in `try/except` returning `False`; writes that completed
before the failure stay on disk; a write failing after `open('w')` leaves a
present-but-unreadable artifact behind. `created_at` and `summary` stand
for the timestamp and the (total, never-raising) summary call's result. -/
def create_vector_db (st : FileState) (mkdirFails : Bool)
    (wMeta wChunks wVectors : WriteResult) (text : List Char)
    (chunk_size chunk_overlap : Int) (idGen : Nat → String)
    (created_at summary : String) (apiKey : Bool) (resp : Nat → EmbedResponse) :
    Bool × FileState :=
  if mkdirFails then (false, st) else
  let st1 := { st with dirExists := true }
  match wMeta with
  | .failClosed => (false, st1)
  | .failOpen => (false, { st1 with metadata := .corrupt })
  | .ok =>
  let st2 := { st1 with metadata := .ok ⟨created_at, chunk_size, chunk_overlap, summary⟩ }
  let chunks := _split_text idGen text chunk_size chunk_overlap
  match wChunks with
  | .failClosed => (false, st2)
  | .failOpen => (false, { st2 with chunks := .corrupt })
  | .ok =>
  let st3 := { st2 with chunks := .ok chunks }
  let vectors := _generate_vectors apiKey resp chunks
  match wVectors with
  | .failClosed => (false, st3)
  | .failOpen => (false, { st3 with vectors := .corrupt })
  | .ok => (true, { st3 with vectors := .ok vectors })

/-- The dictionary returned by `get_vector_db_status`. -/
structure DBStatus where
  existsFlag : Bool
  chunks_exist : Bool
  vectors_exist : Bool
  chunks_count : Nat
  created_at : String
  chunk_size : Int
  chunk_overlap : Int
  summary : String

/-- Embedding of `VectorDBManager.get_vector_db_status(doc_id)`: `exists` is the
conjunction of the presence of `chunks.json` and `vectors.json`; counts and
metadata fields fall back to defaults when a file is missing or unreadable. -/
def get_vector_db_status (st : FileState) : DBStatus :=
  if st.dirExists = false then ⟨false, false, false, 0, "未知", 0, 0, "无摘要"⟩
  else
    { existsFlag := st.chunks.present && st.vectors.present
      chunks_exist := st.chunks.present
      vectors_exist := st.vectors.present
      chunks_count := match st.chunks with | .ok l => l.length | _ => 0
      created_at := match st.metadata with | .ok m => m.created_at | _ => "未知"
      chunk_size := match st.metadata with | .ok m => m.chunk_size | _ => 0
      chunk_overlap := match st.metadata with | .ok m => m.chunk_overlap | _ => 0
      summary := match st.metadata with | .ok m => m.summary | _ => "无摘要" }

/-! ## Similarity search (`_cosine_similarity`, `_fallback_keyword_search`,
`search_vector_db`) -/

/-- The dot product `sum(a * b for a, b in zip(vec1, vec2))`. -/
def dotList (v1 v2 : List ℝ) : ℝ :=
  ((v1.zip v2).map (fun p => p.1 * p.2)).sum

/-- The sum of squares `sum(a * a for a in vec)`. -/
def sumSquares (v : List ℝ) : ℝ :=
  (v.map (fun a => a * a)).sum

/-- The magnitude `sum(a * a for a in vec) ** 0.5` (the sum of squares is nonnegative, so
`** 0.5` is the real square root). -/
noncomputable def magnitude (v : List ℝ) : ℝ :=
  Real.sqrt (sumSquares v)

/-- Embedding of `VectorDBManager._cosine_similarity(vec1, vec2)`. -/
noncomputable def _cosine_similarity (v1 v2 : List ℝ) : ℝ :=
  if v1.length ≠ v2.length then 0
  else if magnitude v1 * magnitude v2 = 0 then 0
  else dotList v1 v2 / (magnitude v1 * magnitude v2)

/-- One search result dictionary `{text, score, metadata}` (the metadata is
the chunk's `{"index": n}`); the same shape is what `rerank_results` takes
as its `documents`. -/
structure SearchResult where
  text : List Char
  score : ℝ
  index : Nat

/-- Comparator for `results.sort(key=lambda x: x["score"], reverse=True)`. -/
noncomputable def scoreDescBool (x y : SearchResult) : Bool :=
  decide (y.score ≤ x.score)

/-- Embedding of `VectorDBManager._fallback_keyword_search(chunks, query, top_k)`:
case-insensitive substring match, fixed score 0.8, sort by score
descending, first `top_k`. -/
noncomputable def _fallback_keyword_search (chunks : List Chunk) (q : List Char)
    (top_k : Nat) : List SearchResult :=
  ((chunks.filterMap (fun c =>
      if listContains (pyLower c.text) (pyLower q) then
        some ⟨c.text, (0.8 : ℝ), c.index⟩
      else none)).mergeSort scoreDescBool).take top_k

/-- Embedding of `VectorDBManager.search_vector_db(doc_id, query, top_k)`. `qv` is the
result of `_generate_query_vector(query)` (that helper absorbs all its own
errors and returns a possibly-empty list, so it is passed as an oracle).
Reading an unreadable `chunks.json`/`vectors.json` raises inside the `try`,
whose handler re-reads `chunks.json` and runs the keyword fallback,
returning `[]` if that re-read raises too. A vector whose dimension differs
from the query vector's is skipped. -/
noncomputable def search_vector_db (st : FileState) (q : List Char) (top_k : Nat)
    (qv : List ℝ) : List SearchResult :=
  if st.dirExists = false then []
  else if st.chunks.present = false ∨ st.vectors.present = false then []
  else
    match st.chunks, st.vectors with
    | .absent, _ => []
    | .corrupt, _ => []
    | .ok _, .absent => []
    | .ok chunks, .corrupt => _fallback_keyword_search chunks q top_k
    | .ok chunks, .ok vectors =>
      if qv.length = 0 then _fallback_keyword_search chunks q top_k
      else
        (((vectors.zip chunks).filterMap (fun pv =>
            if pv.1.vector.length = qv.length then
              some ⟨pv.2.text, _cosine_similarity qv pv.1.vector, pv.2.index⟩
            else none)).mergeSort scoreDescBool).take top_k

/-! ## Reranker adapter (`rerank_results`) -/

/-- One item of a rerank response's `results` list: `result.get("index", -1)`
and `result.get("relevance_score", ...)` mean both fields may be missing. -/
structure RerankItem where
  index : Option Int
  relevance_score : Option ℝ

/-- The rerank endpoint's response: the request raised, or the body has no
`results` field, or a `results` list. -/
inductive RerankResponse where
  | failure
  | noResults
  | results (items : List RerankItem)

/-- Embedding of `VectorDBManager.rerank_results(query, documents, top_k)`. On the
success path the source keeps, in response order, one copy of
`documents[idx]` with its score replaced for every result whose index is in
`[0, len(documents))` — with no truncation of its own. All fallback paths
return `documents[:top_k]`. -/
noncomputable def rerank_results (apiKey : Bool) (resp : RerankResponse)
    (q : List Char) (documents : List SearchResult) (top_k : Nat) :
    List SearchResult :=
  if apiKey = false then documents.take top_k
  else
    match resp with
    | .failure => documents.take top_k
    | .noResults => documents.take top_k
    | .results items =>
      items.filterMap (fun item =>
        let idx := item.index.getD (-1)
        if 0 ≤ idx ∧ idx < (documents.length : Int) then
          (documents[idx.toNat]?).map
            (fun d => { d with score := item.relevance_score.getD d.score })
        else none)

/-! ## Auxiliary measures used by the proofs -/

/-- Sum of the raw lengths of a list of strings. -/
def sumLens (l : List (List Char)) : Nat := (l.map List.length).sum

/-- Upper bound bookkeeping for the chunker: how much `current_size` can
grow while a list of paragraphs is consumed without overflow. -/
def listWeight (l : List (List Char)) : Int :=
  (l.map (fun p => ((pyStrip p).length : Int) + 2)).sum

/-- Descending-by-score order, as the spec states it for search results. -/
def SortedByScoreDesc (l : List SearchResult) : Prop :=
  l.Pairwise (fun x y => y.score ≤ x.score)

/-! ## Lemmas about the string primitives -/

theorem pySplit2_ne_nil (a b : Char) (s : List Char) : pySplit2 a b s ≠ [] := by
  induction s using pySplit2.induct a b with
  | case1 => simp [pySplit2]
  | case2 c => simp [pySplit2]
  | case3 c d rest h ih => simp only [pySplit2, if_pos h]; simp
  | case4 c d rest h hm ih =>
    simp only [pySplit2, if_neg h]
    rw [hm]
    simp
  | case5 c d rest h p ps hm ih =>
    simp only [pySplit2, if_neg h]
    rw [hm]
    simp

theorem pySplit2_length_pos (a b : Char) (s : List Char) :
    1 ≤ (pySplit2 a b s).length := by
  cases hq : pySplit2 a b s with
  | nil => exact absurd hq (pySplit2_ne_nil a b s)
  | cons p ps => simp

/-- The parts of a two-character-separator split account for the whole
string: the raw part lengths plus two characters per separator occurrence
sum to the length of the input. -/
theorem pySplit2_sumLens (a b : Char) (s : List Char) :
    sumLens (pySplit2 a b s) + 2 * ((pySplit2 a b s).length - 1) = s.length := by
  induction s using pySplit2.induct a b with
  | case1 => simp [pySplit2, sumLens]
  | case2 c => simp [pySplit2, sumLens]
  | case3 c d rest h ih =>
    have h2 := pySplit2_length_pos a b rest
    simp only [pySplit2, if_pos h, sumLens, List.map_cons, List.sum_cons, List.length_cons,
      List.length_nil]
    simp only [sumLens] at ih
    omega
  | case4 c d rest h hm ih =>
    exact absurd hm (pySplit2_ne_nil a b (d :: rest))
  | case5 c d rest h p ps hm ih =>
    simp only [pySplit2, if_neg h]
    rw [hm]
    rw [hm] at ih
    simp only [sumLens, List.map_cons, List.sum_cons, List.length_cons] at *
    omega

theorem pyStrip_length_le (s : List Char) : (pyStrip s).length ≤ s.length := by
  unfold pyStrip
  calc (((s.dropWhile Char.isWhitespace).reverse.dropWhile Char.isWhitespace).reverse).length
      = ((s.dropWhile Char.isWhitespace).reverse.dropWhile Char.isWhitespace).length := by
        simp
    _ ≤ (s.dropWhile Char.isWhitespace).reverse.length :=
        ((List.dropWhile_sublist _).length_le)
    _ = (s.dropWhile Char.isWhitespace).length := by simp
    _ ≤ s.length := ((List.dropWhile_sublist _).length_le)

theorem listWeight_nonneg (l : List (List Char)) : 0 ≤ listWeight l := by
  induction l with
  | nil => simp [listWeight]
  | cons p ps ih =>
    simp only [listWeight, List.map_cons, List.sum_cons] at *
    have : (0 : Int) ≤ ((pyStrip p).length : Int) + 2 := by positivity
    omega

/-- The chunker's size budget for the paragraphs of a text is at most the
text's length plus two. -/
theorem listWeight_pySplit2_le (a b : Char) (s : List Char) :
    listWeight (pySplit2 a b s) ≤ (s.length : Int) + 2 := by
  have hsum := pySplit2_sumLens a b s
  have hlen := pySplit2_length_pos a b s
  have hW : ∀ l : List (List Char),
      listWeight l ≤ (sumLens l : Int) + 2 * l.length := by
    intro l
    induction l with
    | nil => simp [listWeight, sumLens]
    | cons p ps ih =>
      have := pyStrip_length_le p
      simp only [listWeight, sumLens, List.map_cons, List.sum_cons, List.length_cons] at *
      push_cast
      push_cast at ih
      omega
  have := hW (pySplit2 a b s)
  set l := pySplit2 a b s
  have : (sumLens l : Int) + 2 * l.length = (s.length : Int) + 2 := by
    omega
  omega

/-! ## Chunk-index invariant of the chunker (claim C9) -/

/-- The index invariant: the metadata indices of a chunk list are exactly
the positions `0, 1, ..., n-1`. -/
def IndexedFromZero (l : List Chunk) : Prop :=
  l.map Chunk.index = List.range l.length

theorem pushCurrent_indices (idGen : Nat → String) (st : SplitState)
    (h : IndexedFromZero st.chunks) : IndexedFromZero (pushCurrent idGen st) := by
  unfold pushCurrent
  split
  · exact h
  · simp only [IndexedFromZero, List.map_append, List.length_append, List.map_cons,
      List.map_nil, List.length_cons, List.length_nil] at *
    rw [h, List.range_succ]

theorem procSentence_indices (idGen : Nat → String) (cs : Int) (st : SplitState)
    (sraw : List Char) (h : IndexedFromZero st.chunks) :
    IndexedFromZero (procSentence idGen cs st sraw).chunks := by
  unfold procSentence
  dsimp only
  split
  · exact h
  · split
    · exact h
    · exact pushCurrent_indices idGen st h

theorem foldSentences_indices (idGen : Nat → String) (cs : Int)
    (l : List (List Char)) (st : SplitState) (h : IndexedFromZero st.chunks) :
    IndexedFromZero ((l.foldl (procSentence idGen cs) st).chunks) := by
  induction l generalizing st with
  | nil => exact h
  | cons x xs ih =>
    exact ih _ (procSentence_indices idGen cs st x h)

theorem procParagraph_indices (idGen : Nat → String) (cs : Int) (st : SplitState)
    (praw : List Char) (h : IndexedFromZero st.chunks) :
    IndexedFromZero (procParagraph idGen cs st praw).chunks := by
  unfold procParagraph
  dsimp only
  split
  · exact h
  · split
    · exact foldSentences_indices idGen cs _ st h
    · split
      · exact pushCurrent_indices idGen st h
      · exact h

theorem foldParagraphs_indices (idGen : Nat → String) (cs : Int)
    (l : List (List Char)) (st : SplitState) (h : IndexedFromZero st.chunks) :
    IndexedFromZero ((l.foldl (procParagraph idGen cs) st).chunks) := by
  induction l generalizing st with
  | nil => exact h
  | cons x xs ih =>
    exact ih _ (procParagraph_indices idGen cs st x h)

/-! ## The chunker never overflows on a short text (towards claim C6) -/

/-- While the remaining paragraphs fit in the size budget, the paragraph
loop never closes a chunk: the chunk list stays empty, and the accumulator
is nonempty exactly when some nonblank paragraph has been consumed. -/
theorem foldParagraphs_no_overflow (idGen : Nat → String) (cs : Int) :
    ∀ (rest : List (List Char)) (st : SplitState),
      st.chunks = [] → 0 ≤ st.size →
      st.size + listWeight rest ≤ cs + 2 →
      ((rest.foldl (procParagraph idGen cs) st).chunks = [] ∧
        ((rest.foldl (procParagraph idGen cs) st).current = [] ↔
          (st.current = [] ∧ ∀ p ∈ rest, pyStrip p = []))) := by
  intro rest
  induction rest with
  | nil =>
    intro st h1 h2 h3
    refine ⟨h1, ?_⟩
    simp
  | cons p rest' ih =>
    intro st h1 h2 h3
    have hw : listWeight (p :: rest') = (((pyStrip p).length : Int) + 2) + listWeight rest' := by
      simp [listWeight]
    have hr := listWeight_nonneg rest'
    by_cases hb : (pyStrip p).isEmpty
    · have hstep : procParagraph idGen cs st p = st := by
        unfold procParagraph
        dsimp only
        rw [if_pos hb]
      simp only [List.foldl_cons, hstep]
      have hmain := ih st h1 h2 (by omega)
      refine ⟨hmain.1, ?_⟩
      rw [hmain.2]
      have hpb : pyStrip p = [] := by
        simpa using hb
      constructor
      · rintro ⟨hc, hall⟩
        exact ⟨hc, by
          intro q hq
          rcases List.mem_cons.mp hq with h | h
          · rw [h]; exact hpb
          · exact hall q h⟩
      · rintro ⟨hc, hall⟩
        exact ⟨hc, fun q hq => hall q (List.mem_cons_of_mem p hq)⟩
    · have hcond1 : ¬ cs < ((pyStrip p).length : Int) := by omega
      have hcond2 : ¬ cs < st.size + ((pyStrip p).length : Int) := by omega
      have hstep : procParagraph idGen cs st p =
          { st with
            current := st.current ++ pyStrip p ++ ['\n', '\n'],
            size := st.size + (pyStrip p).length + 2 } := by
        unfold procParagraph
        dsimp only
        rw [if_neg hb, if_neg hcond1, if_neg hcond2]
      simp only [List.foldl_cons, hstep]
      have hmain := ih
        { st with
          current := st.current ++ pyStrip p ++ ['\n', '\n'],
          size := st.size + (pyStrip p).length + 2 }
        h1
        (show (0 : Int) ≤ st.size + ((pyStrip p).length : Int) + 2 by omega)
        (show st.size + ((pyStrip p).length : Int) + 2 + listWeight rest' ≤ cs + 2 by omega)
      refine ⟨hmain.1, ?_⟩
      rw [hmain.2]
      have hne : st.current ++ pyStrip p ++ ['\n', '\n'] ≠ [] := by
        simp
      have hpb : pyStrip p ≠ [] := by
        simpa using hb
      constructor
      · rintro ⟨hc, -⟩
        exact absurd hc hne
      · rintro ⟨-, hall⟩
        exact absurd (hall p (List.mem_cons_self p rest')) hpb

/-! ## Claim C9 -/

/-- C9: for every input text, chunk_size and chunk_overlap, `_split_text`
assigns to the chunk at position i the metadata index i: the indices are
exactly `0, 1, ..., n-1`, consecutive with no gaps. -/
theorem c9_chunk_indices_consecutive (idGen : Nat → String) (text : List Char)
    (chunk_size chunk_overlap : Int) :
    (_split_text idGen text chunk_size chunk_overlap).map Chunk.index =
      List.range (_split_text idGen text chunk_size chunk_overlap).length := by
  unfold _split_text
  exact pushCurrent_indices idGen _
    (foldParagraphs_indices idGen chunk_size _ _ (by simp [IndexedFromZero]))

/-! ## Claim C6 -/

/-- C6 (counterexample to the claim as stated): the empty text has length
0 < chunk_size = 5, yet `_split_text` yields zero chunks, not exactly one. -/
theorem c6_counterexample :
    (_split_text (fun _ => "") [] 5 0).length = 0 := by decide

/-- C6 (amended): every text that is strictly shorter than `chunk_size`
and has at least one non-blank paragraph yields exactly one chunk
(a completely blank text yields none, as the counterexample shows). -/
theorem c6_short_text_single_chunk (idGen : Nat → String) (text : List Char)
    (chunk_size chunk_overlap : Int) (h1 : 0 < chunk_size)
    (h2 : (text.length : Int) < chunk_size)
    (h3 : ∃ p ∈ pySplit2 '\n' '\n' text, pyStrip p ≠ []) :
    (_split_text idGen text chunk_size chunk_overlap).length = 1 := by
  unfold _split_text
  have hW := listWeight_pySplit2_le '\n' '\n' text
  have hmain := foldParagraphs_no_overflow idGen chunk_size
    (pySplit2 '\n' '\n' text) ⟨[], [], 0⟩ rfl (le_refl 0) (by dsimp only; omega)
  have hcur : (List.foldl (procParagraph idGen chunk_size) ⟨[], [], 0⟩
      (pySplit2 '\n' '\n' text)).current ≠ [] := by
    intro hc
    obtain ⟨p, hp, hpb⟩ := h3
    exact hpb ((hmain.2.mp hc).2 p hp)
  unfold pushCurrent
  rw [if_neg (by simpa using hcur)]
  rw [hmain.1]
  simp

/-- C6 witness: a concrete instance of the amended claim, at the one-letter
text `"a"` with chunk_size 2. -/
theorem c6_witness :
    (0 : Int) < 2 ∧ ((['a'] : List Char).length : Int) < 2 ∧
      (∃ p ∈ pySplit2 '\n' '\n' ['a'], pyStrip p ≠ []) ∧
      (_split_text (fun _ => "") ['a'] 2 0).length = 1 :=
  ⟨by decide, by decide, ⟨['a'], by decide, by decide⟩,
    c6_short_text_single_chunk (fun _ => "") ['a'] 2 0 (by decide) (by decide)
      ⟨['a'], by decide, by decide⟩⟩

/-! ## Claim C5 -/

/-- C5 (counterexample to the claim as stated): `_split_text` performs no
validation of `chunk_size`: called with chunk_size = 0 on the text `"ab"`
it produces one chunk rather than failing with a configuration error (the
source has no raise path at all). -/
theorem c5_counterexample :
    (_split_text (fun _ => "") ['a', 'b'] 0 0).length = 1 := by decide

/-- C5 (amended): for every chunk_size ≤ 0 (and any overlap), the chunker
does not fail: every nonblank unit overflows the budget, so e.g. the
single-sentence text `"ab"` always becomes exactly the one chunk `"ab."`. -/
theorem c5_no_validation_of_chunk_size (idGen : Nat → String)
    (chunk_size chunk_overlap : Int) (h : chunk_size ≤ 0) :
    _split_text idGen ['a', 'b'] chunk_size chunk_overlap =
      [⟨idGen 0, ['a', 'b', '.'], 0⟩] := by
  have h1 : pySplit2 '\n' '\n' ['a', 'b'] = [['a', 'b']] := by decide
  have h2 : pySplit2 '.' ' ' ['a', 'b'] = [['a', 'b']] := by decide
  have h3 : pyStrip ['a', 'b'] = ['a', 'b'] := by decide
  unfold _split_text
  rw [h1]
  simp only [List.foldl_cons, List.foldl_nil]
  have hpara : procParagraph idGen chunk_size ⟨[], [], 0⟩ ['a', 'b'] =
      ⟨[], ['a', 'b', '.', ' '], 4⟩ := by
    unfold procParagraph
    dsimp only
    rw [h3]
    rw [if_neg (by decide), if_pos (by
      show chunk_size < ((['a', 'b'] : List Char).length : Int)
      have : ((['a', 'b'] : List Char).length : Int) = 2 := by decide
      omega)]
    rw [h2]
    simp only [List.foldl_cons, List.foldl_nil]
    unfold procSentence
    dsimp only
    rw [h3]
    rw [if_neg (by decide), if_neg (by
      show ¬ (0 : Int) + ((['a', 'b'] : List Char).length : Int) ≤ chunk_size
      have : ((['a', 'b'] : List Char).length : Int) = 2 := by decide
      omega)]
    rfl
  rw [hpara]
  unfold pushCurrent
  rw [if_neg (by decide)]
  have h4 : pyStrip ['a', 'b', '.', ' '] = ['a', 'b', '.'] := by decide
  simp [h4]

/-- C5 witness: the amended claim instantiated at chunk_size = 0. -/
theorem c5_witness :
    (0 : Int) ≤ 0 ∧
      _split_text (fun _ => "") ['a', 'b'] 0 0 = [⟨"", ['a', 'b', '.'], 0⟩] :=
  ⟨le_refl 0, c5_no_validation_of_chunk_size (fun _ => "") 0 0 (le_refl 0)⟩

/-! ## Vector generation lemmas (towards claim C2) -/

theorem map_id_map_placeholder (l : List Chunk) :
    ((l.map (fun ch => mkStoredVec ch placeholderVector)).map StoredVec.id) =
      l.map Chunk.id := by
  simp [List.map_map, mkStoredVec, Function.comp]

theorem map_id_zipWith (l : List Chunk) (es : List (List ℝ)) (h : l.length ≤ es.length) :
    (List.zipWith mkStoredVec l es).map StoredVec.id = l.map Chunk.id := by
  induction l generalizing es with
  | nil => simp
  | cons c cs ih =>
    cases es with
    | nil => simp at h
    | cons e es' =>
      simp only [List.zipWith_cons_cons, List.map_cons, mkStoredVec]
      exact congrArg (c.id :: ·) (ih es' (by simpa using h))

/-- Whenever every `data` response covers its batch, the batched loop emits
exactly one vector per chunk, in order, carrying the chunk ids. -/
theorem genVectorsBatches_map_id (n : Nat) :
    ∀ (resp : Nat → EmbedResponse) (chunks : List Chunk), chunks.length ≤ n →
    (∀ k embs, resp k = .data embs →
      ((chunks.drop (20 * k)).take 20).length ≤ embs.length) →
    (genVectorsBatches resp chunks).map StoredVec.id = chunks.map Chunk.id := by
  induction n with
  | zero =>
    intro resp chunks hlen h
    have hnil : chunks = [] := List.length_eq_zero.mp (Nat.le_zero.mp hlen)
    subst hnil
    simp [genVectorsBatches]
  | succ n ih =>
    intro resp chunks hlen h
    match chunks with
    | [] => simp [genVectorsBatches]
    | c :: cs =>
      rw [genVectorsBatches]
      rw [List.map_append]
      have hrest := ih (fun k => resp (k + 1)) ((c :: cs).drop 20)
        (by
          simp only [List.length_cons] at hlen
          simp only [List.length_drop, List.length_cons]
          omega)
        (by
          intro k embs hk
          have h2 := h (k + 1) embs hk
          simp only [List.length_take, List.length_drop, List.length_cons] at h2 ⊢
          omega)
      rw [hrest]
      cases hr : resp 0 with
      | noData =>
        rw [map_id_map_placeholder]
        rw [← List.map_append, List.take_append_drop]
      | data embs =>
        rw [map_id_zipWith ((c :: cs).take 20) embs
          (by have h2 := h 0 embs hr; simpa using h2)]
        rw [← List.map_append, List.take_append_drop]

/-! ## Claim C2 -/

/-- C2 (counterexample to the claim as stated): a provider response that
does contain a `data` field but fewer embeddings than the batch has chunks
makes `_generate_vectors` return fewer vectors than input chunks — here one
chunk and an empty `data` list yield zero vectors. -/
theorem c2_counterexample :
    (_generate_vectors true (fun _ => EmbedResponse.data [])
        [⟨"c1", ['t'], 0⟩]).length = 0 := by
  rw [show _generate_vectors true (fun _ => EmbedResponse.data [])
        [⟨"c1", ['t'], 0⟩]
      = genVectorsBatches (fun _ => EmbedResponse.data []) [⟨"c1", ['t'], 0⟩] from rfl]
  rw [genVectorsBatches]
  simp [genVectorsBatches]

/-- C2 (amended): provided every `data` response contains at least as many
embeddings as its batch has chunks (in particular on the no-API-key path
and on failed batches, which get placeholders), `_generate_vectors` emits
exactly one vector per chunk, in input order, carrying the chunk ids; hence
a successful `create_vector_db` stores a chunk list and a vector list of
equal length with ids aligned position by position. -/
theorem c2_vectors_aligned (apiKey : Bool) (resp : Nat → EmbedResponse)
    (chunks : List Chunk)
    (hresp : ∀ k embs, resp k = .data embs →
      ((chunks.drop (20 * k)).take 20).length ≤ embs.length) :
    ((_generate_vectors apiKey resp chunks).map StoredVec.id = chunks.map Chunk.id) ∧
    ((_generate_vectors apiKey resp chunks).length = chunks.length) ∧
    (∀ (st : FileState) (mkdirFails : Bool) (wMeta wChunks wVectors : WriteResult)
        (text : List Char) (cs ov : Int) (idGen : Nat → String) (ca su : String),
      _split_text idGen text cs ov = chunks →
      (create_vector_db st mkdirFails wMeta wChunks wVectors text cs ov idGen ca su
          apiKey resp).1 = true →
      (create_vector_db st mkdirFails wMeta wChunks wVectors text cs ov idGen ca su
          apiKey resp).2.chunks = Artifact.ok chunks ∧
        (create_vector_db st mkdirFails wMeta wChunks wVectors text cs ov idGen ca su
          apiKey resp).2.vectors = Artifact.ok (_generate_vectors apiKey resp chunks)) := by
  have hmap : (_generate_vectors apiKey resp chunks).map StoredVec.id =
      chunks.map Chunk.id := by
    unfold _generate_vectors
    cases apiKey with
    | false => simpa using map_id_map_placeholder chunks
    | true =>
      simpa using genVectorsBatches_map_id chunks.length resp chunks (le_refl _) hresp
  refine ⟨hmap, ?_, ?_⟩
  · have := congrArg List.length hmap
    simpa using this
  · intro st mkdirFails wMeta wChunks wVectors text cs ov idGen ca su hsplit hsucc
    unfold create_vector_db at hsucc ⊢
    cases mkdirFails <;> cases wMeta <;> cases wChunks <;> cases wVectors <;>
      simp_all

/-- C2 witness: the amended claim at one chunk whose batch gets a failed
response (placeholder path); the hypothesis holds vacuously. -/
theorem c2_witness :
    (_generate_vectors true (fun _ => EmbedResponse.noData)
        [⟨"c1", ['t'], 0⟩]).map StoredVec.id = [⟨"c1", ['t'], 0⟩].map Chunk.id :=
  (c2_vectors_aligned true (fun _ => EmbedResponse.noData) [⟨"c1", ['t'], 0⟩]
    (fun _ _ h => nomatch h)).1

/-! ## Claim C1 -/

/-- A state whose vectors artifact is absent reports as not existing. -/
theorem status_not_exists_of_vectors_absent (st : FileState)
    (h : st.vectors = .absent) :
    (get_vector_db_status st).existsFlag = false := by
  unfold get_vector_db_status
  split
  · rfl
  · simp [h, Artifact.present]

/-- C1 (counterexample to the claim as stated), in two scenarios. First:
when a collection for the document already exists (both artifacts present),
a create that fails at the metadata write (before `open` touches anything)
leaves the old artifacts in place, so the failed creation is still
observable as existing — refuting "regardless of whether a collection for
that id existed before the call". Second: even for a fresh document id with
no prior artifacts, a vectors write that fails after `open('w')` has
created the file (e.g. disk full) leaves a partial `vectors.json` present,
and the failed creation again reports as existing — refuting "regardless of
which step of create failed". -/
theorem c1_counterexample :
    ((create_vector_db
        ⟨true, .ok [⟨"c0", ['x'], 0⟩], .ok [⟨"c0", placeholderVector, 0⟩],
          .ok ⟨"t0", 500, 100, "s0"⟩⟩
        false .failClosed .ok .ok
        ['x'] 500 100 (fun _ => "") "t1" "s1" false (fun _ => .noData)).1 = false ∧
      (get_vector_db_status
        (create_vector_db
          ⟨true, .ok [⟨"c0", ['x'], 0⟩], .ok [⟨"c0", placeholderVector, 0⟩],
            .ok ⟨"t0", 500, 100, "s0"⟩⟩
          false .failClosed .ok .ok
          ['x'] 500 100 (fun _ => "") "t1" "s1" false
          (fun _ => .noData)).2).existsFlag = true) ∧
    ((create_vector_db ⟨false, .absent, .absent, .absent⟩
        false .ok .ok .failOpen
        ['x'] 500 100 (fun _ => "") "t1" "s1" false (fun _ => .noData)).1 = false ∧
      (get_vector_db_status
        (create_vector_db ⟨false, .absent, .absent, .absent⟩
          false .ok .ok .failOpen
          ['x'] 500 100 (fun _ => "") "t1" "s1" false
          (fun _ => .noData)).2).existsFlag = true) :=
  ⟨⟨rfl, rfl⟩, ⟨rfl, rfl⟩⟩

/-- C1 (amended): whenever the vectors artifact was absent before the call
(a document id with no prior collection) and the failure happened before
the vectors artifact file was opened for writing — at mkdir, either earlier
write, or an `open` failure of the vectors write itself — a failed
`create_vector_db` leaves the collection not observable as existing. (If a
collection existed before, or if the vectors write fails only after
`open('w')` created the file, the failed create can still report as
existing, as the counterexample shows.) -/
theorem c1_failed_create_not_exists (st : FileState) (mkdirFails : Bool)
    (wMeta wChunks wVectors : WriteResult)
    (text : List Char) (cs ov : Int) (idGen : Nat → String) (ca su : String)
    (apiKey : Bool) (resp : Nat → EmbedResponse)
    (hfresh : st.vectors = .absent)
    (hvw : wVectors ≠ .failOpen)
    (hfail : (create_vector_db st mkdirFails wMeta wChunks wVectors text cs ov
        idGen ca su apiKey resp).1 = false) :
    (get_vector_db_status
      (create_vector_db st mkdirFails wMeta wChunks wVectors text cs ov
        idGen ca su apiKey resp).2).existsFlag = false := by
  apply status_not_exists_of_vectors_absent
  unfold create_vector_db at hfail ⊢
  cases mkdirFails <;> cases wMeta <;> cases wChunks <;> cases wVectors <;>
    simp_all

/-- C1 witness: a fresh directory state with mkdir failing. -/
theorem c1_witness :
    (FileState.mk false .absent .absent .absent).vectors = Artifact.absent ∧
      WriteResult.ok ≠ WriteResult.failOpen ∧
      (create_vector_db (FileState.mk false .absent .absent .absent)
        true .ok .ok .ok ['x'] 500 100 (fun _ => "") "t" "s" false
        (fun _ => .noData)).1 = false ∧
      (get_vector_db_status
        (create_vector_db (FileState.mk false .absent .absent .absent)
          true .ok .ok .ok ['x'] 500 100 (fun _ => "") "t" "s" false
          (fun _ => .noData)).2).existsFlag = false :=
  ⟨rfl, fun h => WriteResult.noConfusion h, rfl,
    c1_failed_create_not_exists (FileState.mk false .absent .absent .absent)
      true .ok .ok .ok ['x'] 500 100 (fun _ => "") "t" "s" false
      (fun _ => .noData) rfl (fun h => WriteResult.noConfusion h) rfl⟩

/-! ## Sorting lemmas for search results (towards claims C3 and C10) -/

theorem scoreDescBool_trans (a b c : SearchResult) (h1 : scoreDescBool a b = true)
    (h2 : scoreDescBool b c = true) : scoreDescBool a c = true := by
  simp only [scoreDescBool, decide_eq_true_eq] at h1 h2 ⊢
  exact le_trans h2 h1

theorem scoreDescBool_total (a b : SearchResult) :
    (scoreDescBool a b || scoreDescBool b a) = true := by
  simp only [scoreDescBool, Bool.or_eq_true, decide_eq_true_eq]
  exact le_total b.score a.score

theorem sorted_take_mergeSort (l : List SearchResult) (k : Nat) :
    ((l.mergeSort scoreDescBool).take k).length ≤ k ∧
      SortedByScoreDesc ((l.mergeSort scoreDescBool).take k) := by
  constructor
  · rw [List.length_take]
    exact min_le_left _ _
  · have hs := @List.sorted_mergeSort SearchResult scoreDescBool
      (fun a b c hab hbc => scoreDescBool_trans a b c hab hbc) scoreDescBool_total l
    have ht := List.Pairwise.sublist (List.take_sublist k _) hs
    exact ht.imp (fun h => of_decide_eq_true h)

theorem fallback_topk_sorted (chunks : List Chunk) (q : List Char) (k : Nat) :
    (_fallback_keyword_search chunks q k).length ≤ k ∧
      SortedByScoreDesc (_fallback_keyword_search chunks q k) := by
  unfold _fallback_keyword_search
  exact sorted_take_mergeSort _ k

/-! ## Claim C3 -/

/-- C3: for every state, query and top_k, `search_vector_db` returns at
most top_k results, sorted by score in descending order — on the
cosine-similarity path, the keyword-fallback path, and all error paths. -/
theorem c3_search_topk_sorted (st : FileState) (q : List Char) (top_k : Nat)
    (qv : List ℝ) :
    (search_vector_db st q top_k qv).length ≤ top_k ∧
      SortedByScoreDesc (search_vector_db st q top_k qv) := by
  unfold search_vector_db
  split
  · exact ⟨by simp, List.Pairwise.nil⟩
  · split
    · exact ⟨by simp, List.Pairwise.nil⟩
    · split
      · exact ⟨by simp, List.Pairwise.nil⟩
      · exact ⟨by simp, List.Pairwise.nil⟩
      · exact ⟨by simp, List.Pairwise.nil⟩
      · exact fallback_topk_sorted _ _ _
      · split
        · exact fallback_topk_sorted _ _ _
        · exact sorted_take_mergeSort _ _

/-! ## Claim C10 -/

/-- C10 (counterexample to the claim as stated): chunks are readable and an
exception occurs in the vector path (unreadable vectors file), the fallback
keyword search runs fine but matches nothing, and search returns the empty
sequence even though the fallback did not fail — refuting "returns the
empty sequence only if that fallback also fails". -/
theorem c10_counterexample :
    (FileState.mk true (.ok [⟨"c1", ['a', 'b', 'c'], 0⟩]) .corrupt .absent).chunks
        = Artifact.ok [⟨"c1", ['a', 'b', 'c'], 0⟩] ∧
      (FileState.mk true (.ok [⟨"c1", ['a', 'b', 'c'], 0⟩]) .corrupt .absent).vectors
        = Artifact.corrupt ∧
      search_vector_db
        (FileState.mk true (.ok [⟨"c1", ['a', 'b', 'c'], 0⟩]) .corrupt .absent)
        ['z'] 3 [] = [] := by
  refine ⟨rfl, rfl, ?_⟩
  have hlc : listContains (pyLower ['a', 'b', 'c']) (pyLower ['z']) = false := by decide
  simp [search_vector_db, _fallback_keyword_search, Artifact.present, hlc]

/-- C10 (amended): for a state whose chunks artifact is readable, an
exception in the vector-search path (an unreadable vectors artifact) does
not propagate: the result is exactly the case-insensitive keyword fallback
over the chunks (which may itself legitimately be empty when nothing
matches); the hardcoded empty error return happens only when re-reading the
chunks artifact fails too. -/
theorem c10_vector_error_falls_back (st : FileState) (q : List Char) (top_k : Nat)
    (qv : List ℝ) (cl : List Chunk) (hdir : st.dirExists = true)
    (hc : st.chunks = .ok cl) (hv : st.vectors = .corrupt) :
    search_vector_db st q top_k qv = _fallback_keyword_search cl q top_k := by
  obtain ⟨dir, ch, vec, meta⟩ := st
  dsimp only at hdir hc hv
  subst hdir hc hv
  simp [search_vector_db, Artifact.present]

/-- C10 witness: the amended claim at a one-chunk readable collection with
an unreadable vectors artifact. -/
theorem c10_witness :
    (FileState.mk true (.ok [⟨"k", ['q'], 0⟩]) .corrupt .absent).dirExists = true ∧
      (FileState.mk true (.ok [⟨"k", ['q'], 0⟩]) .corrupt .absent).chunks
        = Artifact.ok [⟨"k", ['q'], 0⟩] ∧
      (FileState.mk true (.ok [⟨"k", ['q'], 0⟩]) .corrupt .absent).vectors
        = Artifact.corrupt ∧
      search_vector_db (FileState.mk true (.ok [⟨"k", ['q'], 0⟩]) .corrupt .absent)
        ['q'] 2 [] = _fallback_keyword_search [⟨"k", ['q'], 0⟩] ['q'] 2 :=
  ⟨rfl, rfl, rfl,
    c10_vector_error_falls_back (FileState.mk true (.ok [⟨"k", ['q'], 0⟩]) .corrupt .absent)
      ['q'] 2 [] [⟨"k", ['q'], 0⟩] rfl rfl rfl⟩

/-! ## Claim C4 -/

/-- C4: whenever the rerank provider is unreachable — missing credentials,
a failed call, or a response without a results field — `rerank_results`
returns exactly the first top_k candidates, unchanged in order and scores. -/
theorem c4_rerank_unreachable_fallback (apiKey : Bool) (resp : RerankResponse)
    (q : List Char) (documents : List SearchResult) (top_k : Nat)
    (h : apiKey = false ∨ resp = .failure ∨ resp = .noResults) :
    rerank_results apiKey resp q documents top_k = documents.take top_k := by
  unfold rerank_results
  rcases h with h | h | h
  · rw [if_pos (by rw [h])]
  · subst h
    split
    · rfl
    · rfl
  · subst h
    split
    · rfl
    · rfl

/-- C4 witness: missing credentials on a one-candidate list. -/
theorem c4_witness :
    rerank_results false RerankResponse.failure ['q'] [⟨['a'], 1, 0⟩] 1 =
      [⟨['a'], 1, 0⟩].take 1 :=
  c4_rerank_unreachable_fallback false RerankResponse.failure ['q']
    [⟨['a'], 1, 0⟩] 1 (Or.inl rfl)

/-! ## Claim C7 -/

/-- On the success path, `rerank_results` keeps exactly the response items
whose index is valid for the candidate list. -/
theorem rerank_success_keep_count (documents : List SearchResult)
    (items : List RerankItem) :
    (items.filterMap (fun item =>
        if 0 ≤ item.index.getD (-1) ∧ item.index.getD (-1) < (documents.length : Int) then
          (documents[(item.index.getD (-1)).toNat]?).map
            (fun d => { d with score := item.relevance_score.getD d.score })
        else none)).length
      = (items.filter (fun it =>
          decide (0 ≤ it.index.getD (-1)) &&
            decide (it.index.getD (-1) < (documents.length : Int)))).length := by
  induction items with
  | nil => rfl
  | cons it its ih =>
    simp only [List.filterMap_cons, List.filter_cons]
    by_cases hcond : 0 ≤ it.index.getD (-1) ∧ it.index.getD (-1) < (documents.length : Int)
    · rw [if_pos hcond]
      have hlt : (it.index.getD (-1)).toNat < documents.length := by omega
      obtain ⟨d, hd⟩ : ∃ d, documents[(it.index.getD (-1)).toNat]? = some d :=
        ⟨documents[(it.index.getD (-1)).toNat], List.getElem?_eq_getElem hlt⟩
      rw [hd]
      have hb : (decide (0 ≤ it.index.getD (-1)) &&
          decide (it.index.getD (-1) < (documents.length : Int))) = true := by
        simp [hcond.1, hcond.2]
      rw [if_pos hb]
      simp only [Option.map_some', List.length_cons]
      omega
    · rw [if_neg hcond]
      have hb : (decide (0 ≤ it.index.getD (-1)) &&
          decide (it.index.getD (-1) < (documents.length : Int))) = false := by
        rcases not_and_or.mp hcond with h | h <;> simp [h]
      rw [if_neg (by simp [hb])]
      exact ih

/-- C7 (counterexample to the claim as stated): a success response with
more results than top_k makes `rerank_results` return more than top_k
items — the source never truncates the success path. Here one candidate,
top_k = 1, and a response listing index 0 twice yield two results. -/
theorem c7_counterexample :
    (rerank_results true
        (RerankResponse.results [⟨some 0, none⟩, ⟨some 0, none⟩])
        ['q'] [⟨['a'], 1, 0⟩] 1).length = 2 := by
  simp [rerank_results]

/-- C7 (amended): on the success path the returned sequence consists of
exactly the response items with a valid index — any index outside
[0, len(candidates)) is dropped — so its length is the number of
valid-index results, at most the number of response results (but it is not
truncated to top_k). -/
theorem c7_success_path_length (q : List Char) (documents : List SearchResult)
    (top_k : Nat) (items : List RerankItem) :
    (rerank_results true (RerankResponse.results items) q documents top_k).length
        = (items.filter (fun it =>
            decide (0 ≤ it.index.getD (-1)) &&
              decide (it.index.getD (-1) < (documents.length : Int)))).length ∧
      (rerank_results true (RerankResponse.results items) q documents top_k).length
        ≤ items.length := by
  have hr : rerank_results true (RerankResponse.results items) q documents top_k
      = items.filterMap (fun item =>
          if 0 ≤ item.index.getD (-1) ∧ item.index.getD (-1) < (documents.length : Int) then
            (documents[(item.index.getD (-1)).toNat]?).map
              (fun d => { d with score := item.relevance_score.getD d.score })
          else none) := by
    unfold rerank_results
    rw [if_neg (by simp)]
  rw [hr, rerank_success_keep_count documents items]
  exact ⟨rfl, List.length_filter_le _ _⟩

/-! ## Claim C8 -/

/-- C8: `_cosine_similarity` returns 0.0 (without raising — it is a total
function) whenever the two vectors have different lengths or either vector
has zero magnitude, and otherwise returns dot(a,b) / (‖a‖ * ‖b‖). -/
theorem c8_cosine_similarity_spec (v1 v2 : List ℝ) :
    _cosine_similarity v1 v2 =
      if v1.length ≠ v2.length ∨ magnitude v1 = 0 ∨ magnitude v2 = 0 then 0
      else dotList v1 v2 / (magnitude v1 * magnitude v2) := by
  unfold _cosine_similarity
  by_cases hl : v1.length ≠ v2.length
  · rw [if_pos hl, if_pos (Or.inl hl)]
  · rw [if_neg hl]
    by_cases hm : magnitude v1 * magnitude v2 = 0
    · rw [if_pos hm, if_pos (Or.inr (mul_eq_zero.mp hm))]
    · have hne := mul_ne_zero_iff.mp hm
      rw [if_neg hm,
        if_neg (fun hor => hor.elim (fun h => hl h)
          (fun hor2 => hor2.elim (fun h => hne.1 h) (fun h => hne.2 h)))]

end VecDB
